import Mathlib

/-!
Shallow embedding of the resource-acquisition engine of the
`catalog-data-fair` plugin (file `src/lib/download.ts`), together with
theorems checking the natural-language specification against it.

Conventions of the embedding:
* JavaScript `undefined`-able values become `Option`.
* Machine `Buffer` chunks become `String` (byte-level operations are mapped
  to character-level operations; all relevant bytes are ASCII).
* Fallible computations return an explicit result inductive.
* The HTTP and file-system environments are passed in as explicit outcome
  values: a run of a download function maps those outcomes to the sequence
  of observable events, the final state of the destination file and the
  result.
-/

namespace CatalogDataFair

/-- A field reference `{ key }` as it appears in the import configuration. -/
structure FieldRef where
  key : String
deriving DecidableEq

/-- A filter of the import configuration:
`{ field: { key }, type, value?, values? }`.  The `type` is kept as a raw
string, mirroring the `switch` with a `default` branch in the source. -/
structure Filter where
  field : FieldRef
  type : String
  value : Option String
  values : Option (List String)
deriving DecidableEq

/-- JS stringification of a possibly-undefined value: template interpolation
of `undefined` yields the text `"undefined"`. -/
def jsStr : Option String → String
  | none => "undefined"
  | some v => v

/-- JS `filter.values?.join('","')` followed by template interpolation:
`undefined` interpolates as `"undefined"`, a list joins with `","`. -/
def jsJoinQuoted : Option (List String) → String
  | none => "undefined"
  | some vs => String.intercalate "\",\"" vs

/-- One filter clause of the row-streaming query string, from the `switch`
in `downloadResourceLines`: `in`/`nin` produce
`&{key}_{type}="v1","v2"`, `starts`/`gte`/`lte` produce `&{key}_{type}={value}`,
and any other type produces nothing (the `default` branch). -/
def filterClause (f : Filter) : String :=
  if f.type = "in" ∨ f.type = "nin" then
    "&" ++ f.field.key ++ "_" ++ f.type ++ "=\"" ++ jsJoinQuoted f.values ++ "\""
  else if f.type = "starts" ∨ f.type = "gte" ∨ f.type = "lte" then
    "&" ++ f.field.key ++ "_" ++ f.type ++ "=" ++ jsStr f.value
  else ""

/-- The base `/lines` URL built by `downloadResourceLines` before any
select or filter clause. -/
def linesBase (catalogUrl resourceId : String) : String :=
  catalogUrl ++ "/data-fair/api/v1/datasets/" ++ resourceId ++ "/lines?format=csv&size=5000"

/-- The full row-streaming query string of `downloadResourceLines`:
the base URL, then `&select=...` when `importConfig.fields` is defined
(the JS truthiness test `if (importConfig.fields)` is true for any array,
including the empty one), then one clause per filter in input order
(the `forEach` accumulating with `url +=`, i.e. a left fold). -/
def buildLinesUrl (catalogUrl resourceId : String)
    (fields : Option (List FieldRef)) (filters : Option (List Filter)) : String :=
  let u0 := linesBase catalogUrl resourceId
  let u1 := match fields with
    | none => u0
    | some fs => u0 ++ "&select=" ++ String.intercalate "," (fs.map (·.key))
  match filters with
  | none => u1
  | some fl => fl.foldl (fun u f => u ++ filterClause f) u1

/-- Spec side (for the refinement claim about the query string): the clause
the specification describes for one filter — `in`/`nin` quote and
comma-join the multiple values, `starts`/`gte`/`lte` append the single raw
value, unknown types contribute no clause. -/
def specFilterClause (f : Filter) : String :=
  if f.type = "in" ∨ f.type = "nin" then
    match f.values with
    | some vs => "&" ++ f.field.key ++ "_" ++ f.type ++ "=\"" ++ String.intercalate "\",\"" vs ++ "\""
    | none => ""
  else if f.type = "starts" ∨ f.type = "gte" ∨ f.type = "lte" then
    match f.value with
    | some v => "&" ++ f.field.key ++ "_" ++ f.type ++ "=" ++ v
    | none => ""
  else ""

/-- Spec side: the filter clauses appended one after the other in input
order. -/
def specFilterPart : List Filter → String
  | [] => ""
  | f :: fs => specFilterClause f ++ specFilterPart fs

/-- Spec side: the whole row-streaming query string as the specification
describes it — base path, then a select clause of comma-joined field keys
when a field list is given, then the filter clauses in input order. -/
def specLinesUrl (catalogUrl resourceId : String)
    (fields : Option (List FieldRef)) (filters : Option (List Filter)) : String :=
  linesBase catalogUrl resourceId
    ++ (match fields with
        | none => ""
        | some fs => "&select=" ++ String.intercalate "," (fs.map (·.key)))
    ++ specFilterPart (filters.getD [])

/-- Well-formedness of a filter list: every `in`/`nin` filter carries its
`values` array and every `starts`/`gte`/`lte` filter carries its `value`. -/
def filtersWF (filters : Option (List Filter)) : Prop :=
  ∀ f ∈ filters.getD [],
    ((f.type = "in" ∨ f.type = "nin") → f.values.isSome)
    ∧ ((f.type = "starts" ∨ f.type = "gte" ∨ f.type = "lte") → f.value.isSome)

instance (filters : Option (List Filter)) : Decidable (filtersWF filters) := by
  unfold filtersWF; infer_instance

/-! ### JavaScript string primitives, kernel-computable -/

/-- JS `String.prototype.split` with a one-character separator, accumulator
version: `acc` holds the characters of the current piece in reverse. -/
def jsSplitAux (sep : Char) : List Char → List Char → List String
  | [], acc => [String.mk acc.reverse]
  | c :: cs, acc =>
    if c = sep then String.mk acc.reverse :: jsSplitAux sep cs []
    else jsSplitAux sep cs (c :: acc)

/-- JS `s.split(sep)` for a one-character separator: `"".split(',')` is
`[""]`, separators at the ends or adjacent produce empty pieces. -/
def jsSplit (sep : Char) (s : String) : List String :=
  jsSplitAux sep s.toList []

/-- The whitespace characters relevant to JS `trim` on HTTP header values. -/
def jsWs (c : Char) : Bool :=
  c = ' ' ∨ c = '\t' ∨ c = '\n' ∨ c = '\r'

/-- JS `s.trim()`: strip whitespace from both ends. -/
def jsTrim (s : String) : String :=
  String.mk (((s.toList.dropWhile jsWs).reverse.dropWhile jsWs).reverse)

/-- JS `s.slice(1, -1)`: drop the first and the last character. -/
def jsSliceInner (s : String) : String :=
  String.mk ((s.toList.drop 1).dropLast)

/-! ### Next-page URL extraction (`extractNextPageUrl`) -/

/-- Result of `extractNextPageUrl`: the JS function either returns a value
(`null` or a URL) or throws a `TypeError` (when an entry of the header has
no `;`, so that `relPart` is `undefined` and `relPart.trim()` throws). -/
inductive LinkResult where
  | throwTypeError : LinkResult
  | ok : Option String → LinkResult
deriving DecidableEq

/-- The `for` loop of `extractNextPageUrl` over the comma-separated
entries: `const [urlPart, relPart] = link.split(';')` destructures the
first two pieces; `relPart` is `undefined` when there is no `;`, and the
subsequent `relPart.trim()` throws. -/
def extractNextPageUrlGo : List String → LinkResult
  | [] => .ok none
  | link :: rest =>
    match jsSplit ';' link with
    | [] => .throwTypeError
    | [_] => .throwTypeError
    | urlPart :: relPart :: _ =>
      if jsTrim relPart = "rel=next" then .ok (some (jsSliceInner (jsTrim urlPart)))
      else extractNextPageUrlGo rest

/-- `extractNextPageUrl`: `if (!linkHeader) return null` (absent or empty
header), then scan the comma-separated entries for one whose trimmed
relation part is the literal `rel=next`. -/
def extractNextPageUrl (linkHeader : Option String) : LinkResult :=
  match linkHeader with
  | none => .ok none
  | some h => if h = "" then .ok none else extractNextPageUrlGo (jsSplit ',' h)

/-- Spec side: whether an entry of the link header matches `rel=next`
according to the specification (its relation part, after trimming, equals
the literal `rel=next`). -/
def specIsNext (entry : String) : Bool :=
  jsTrim ((jsSplit ';' entry).getD 1 "") = "rel=next"

/-- Spec side: the URL the specification extracts from a matching entry
(strip the enclosing angle brackets from the trimmed URL part). -/
def specEntryUrl (entry : String) : String :=
  jsSliceInner (jsTrim ((jsSplit ';' entry).getD 0 ""))

/-- Spec side: the next-page URL is that of the first matching entry,
or absent. -/
def specNextUrl (entries : List String) : Option String :=
  ((entries.find? specIsNext).map specEntryUrl)

/-! ### Per-page header-strip transform of `downloadResourceLines` -/

/-- The `Transform` installed for every page after the first, modelled on
the list of chunks of the page body.  The boolean is the `skippedHeader`
flag.  Faithful to the source: when the flag is still false and the chunk
contains no newline, the chunk is pushed **unchanged** (the code only
slices when `chunk.indexOf('\n')` finds a newline in that same chunk). -/
def stripGo : Bool → List String → List String
  | _, [] => []
  | true, c :: cs => c :: stripGo true cs
  | false, c :: cs =>
    match c.toList.findIdx? (· = '\n') with
    | some i => String.mk (c.toList.drop (i + 1)) :: stripGo true cs
    | none => c :: stripGo false cs

/-- The whole per-page transform: starts with `skippedHeader = false`. -/
def stripPage (chunks : List String) : List String :=
  stripGo false chunks

/-- Concatenation of chunks, i.e. the bytes that reach the sink. -/
def concatChunks (chunks : List String) : String :=
  String.join chunks

/-- Spec side: drop all bytes of a page body up to and including its first
newline (the body left unchanged when it has no newline at all). -/
def specDropHeader (body : String) : String :=
  match body.toList.findIdx? (· = '\n') with
  | some i => String.mk (body.toList.drop (i + 1))
  | none => body

/-! ### Schema normalization and metadata (`getMetaData`) -/

/-- A schema field descriptor.  `xExtension` models the `'x-extension'`
property (`none` = absent or `undefined`); `type` stands for the other
properties carried through unchanged by the spread `...field`. -/
structure SchemaField where
  key : String
  type : Option String
  xExtension : Option String
deriving DecidableEq

/-- JS truthiness of a possibly-undefined string: `undefined` and the empty
string are falsy. -/
def jsTruthy : Option String → Bool
  | none => false
  | some s => !(s = "")

/-- JS `key.replace(/^_/, '')`: remove one leading underscore. -/
def stripLeadingUnderscore (key : String) : String :=
  match key.toList with
  | '_' :: rest => String.mk rest
  | _ => key

/-- The per-field normalization in `getMetaData`: a field whose
`'x-extension'` is truthy gets its key slugified (the external `slugify`
library is the parameter `slug`) after removing a leading underscore, and
its `'x-extension'` set to `undefined`; any other field passes through
unchanged. -/
def normalizeField (slug : String → String) (f : SchemaField) : SchemaField :=
  if jsTruthy f.xExtension then
    { f with key := slug (stripLeadingUnderscore f.key), xExtension := none }
  else f

/-- The schema normalization: `(dataset.schema ?? []).map(...)`. -/
def normalizeSchema (slug : String → String) (schema : List SchemaField) : List SchemaField :=
  schema.map (normalizeField slug)

/-- A `{ size }` object (`file`, `storage`, `originalFile`), whose `size`
may itself be absent. -/
structure SizeInfo where
  size : Option Nat
deriving DecidableEq

/-- Upstream `license` object, either part possibly absent. -/
structure LicenseInfo where
  title : Option String
  href : Option String
deriving DecidableEq

/-- The upstream metadata document (`DataFairDataset`) restricted to the
properties `getMetaData` reads. -/
structure DataFairDataset where
  title : Option String
  description : Option String
  frequency : Option String
  image : Option String
  keywords : Option (List String)
  file : Option SizeInfo
  storage : Option SizeInfo
  originalFile : Option SizeInfo
  license : Option LicenseInfo
  schema : Option (List SchemaField)
deriving DecidableEq

/-- The `license` field of the built resource. -/
structure ResourceLicense where
  title : String
  href : String
deriving DecidableEq

/-- The normalized resource built by `getMetaData`. -/
structure Resource where
  id : String
  title : Option String
  description : Option String
  format : String
  origin : String
  frequency : Option String
  image : Option String
  keywords : Option (List String)
  size : Option Nat
  schema : List SchemaField
  filePath : String
  license : Option ResourceLicense
deriving DecidableEq

/-- `dataset.file?.size ?? dataset.storage?.size ?? dataset.originalFile?.size`:
nullish-coalescing fallback, first defined value wins (zero is kept). -/
def resolveSize (d : DataFairDataset) : Option Nat :=
  (d.file.bind SizeInfo.size) <|> (d.storage.bind SizeInfo.size) <|> (d.originalFile.bind SizeInfo.size)

/-- The resource object literal built by `getMetaData` (after the schema
normalization), including the conditional `license` block and
`filePath: ''`. -/
def mkResource (slug : String → String) (catalogUrl resourceId : String)
    (d : DataFairDataset) : Resource :=
  { id := resourceId
    title := d.title
    description := d.description
    format := "csv"
    origin := catalogUrl ++ "/datasets/" ++ resourceId
    frequency := d.frequency
    image := d.image
    keywords := d.keywords
    size := resolveSize d
    schema := normalizeSchema slug (d.schema.getD [])
    filePath := ""
    license := d.license.map (fun l => { title := l.title.getD "", href := l.href.getD "" }) }

/-- Outcome of the metadata GET: the request either rejects with a message
or yields a status, a textual rendering of the body (used in the error
message) and the parsed dataset. -/
inductive MetaHttp where
  | reqFail : String → MetaHttp
  | resp : Nat → String → DataFairDataset → MetaHttp
deriving DecidableEq

/-- Result of `getMetaData`: either the wrapped error thrown by its
`catch`, or the resource together with `file: !!dataset.file`. -/
inductive MetaResult where
  | err : String → MetaResult
  | ok : Resource → Bool → MetaResult
deriving DecidableEq

/-- `getMetaData`: a rejected request or a non-200 status ends in the
`catch`, which wraps the message; otherwise the resource is built from the
dataset and returned together with the bulk-file flag. -/
def getMetaData (slug : String → String) (catalogUrl resourceId : String)
    (h : MetaHttp) : MetaResult :=
  match h with
  | .reqFail m => .err ("Erreur lors de la récuperation de la resource DataFair. " ++ m)
  | .resp status dataRepr d =>
    if status ≠ 200 then
      .err ("Erreur lors de la récuperation de la resource DataFair. "
        ++ "HTTP error : " ++ toString status ++ ", " ++ dataRepr)
    else
      .ok (mkResource slug catalogUrl resourceId d) d.file.isSome

/-! ### Runs of the download functions as event traces

A run maps the environment's outcomes (HTTP responses, stream endings) to
the observable events in order, the final state of the destination file
(`none` = no file at `{tmpDir}/{resourceId}.csv`, `some c` = file with
content `c`) and the result. -/

/-- Observable events of a download run. -/
inductive Ev where
  | task : Option Nat → Ev
  | httpGet : Ev
  | openWrite : Ev
  | write : String → Ev
  | unlink : Ev
  | closeWrite : Ev
deriving DecidableEq

/-- Events, destination-file state and error (`none` = success) of a run
of one download strategy. -/
structure RunOut where
  events : List Ev
  fs : Option String
  error : Option String
deriving DecidableEq

/-- Terminal event of the bulk response stream after its chunks were
delivered: clean end, source-stream error or sink error.  The boolean is
whether the fire-and-forget `fs.unlink` itself fails (its failure is
swallowed by the empty callback). -/
inductive BulkTerm where
  | done : BulkTerm
  | srcErr : String → Bool → BulkTerm
  | sinkErr : String → Bool → BulkTerm
deriving DecidableEq

/-- A bulk GET response: status, status text, body chunks delivered before
the terminal event, and the terminal event. -/
structure BulkResp where
  status : Nat
  statusText : String
  chunks : List String
  term : BulkTerm
deriving DecidableEq

/-- Outcome of the bulk GET: rejected request or response. -/
inductive BulkOutcome where
  | reqFail : String → BulkOutcome
  | resp : BulkResp → BulkOutcome
deriving DecidableEq

/-- `downloadResourceFile`: the GET comes first; a rejected request or a
non-200 status throws before `fs.createWriteStream`, leaving the
destination file untouched (`fs0`).  Otherwise the write stream is opened
(truncating the destination), the chunks are piped, and on a source or
sink error the counterpart stream is destroyed, the partial file is
unlinked (deletion failure swallowed) and the run fails with the
underlying error. -/
def runBulk (fs0 : Option String) : BulkOutcome → RunOut
  | .reqFail m => { events := [.httpGet], fs := fs0, error := some m }
  | .resp r =>
    if r.status ≠ 200 then
      { events := [.httpGet]
        fs := fs0
        error := some ("Error while fetching data: HTTP " ++ r.statusText) }
    else
      let evs := .httpGet :: .openWrite :: r.chunks.map Ev.write
      match r.term with
      | .done =>
        { events := evs ++ [.closeWrite], fs := some (concatChunks r.chunks), error := none }
      | .srcErr m unlinkFails =>
        { events := evs ++ [.unlink]
          fs := if unlinkFails then some (concatChunks r.chunks) else none
          error := some m }
      | .sinkErr m unlinkFails =>
        { events := evs ++ [.unlink]
          fs := if unlinkFails then some (concatChunks r.chunks) else none
          error := some m }

/-- Outcome of one iteration of the pagination loop: a rejected request,
or a response carrying status, status text, body chunks, an optional
stream error replacing the clean `end` event, and the `link` header. -/
inductive PageOutcome where
  | reqFail : String → PageOutcome
  | page : Nat → String → List String → Option String → Option String → PageOutcome
deriving DecidableEq

/-- The `while (url)` loop of `downloadResourceLines`.  `isFirst` is the
negation of the source's `isFirstChunk` page flag; `acc` is the content
written so far; `evs` the events so far.  An exhausted outcome list models
a transport failure on the next request.  Faithful to the source: on a
stream error the writer is closed but the partial file is **not**
unlinked; on a non-200 status the loop throws with the file in place; a
`TypeError` thrown by `extractNextPageUrl` also aborts the run. -/
def runLinesGo : Bool → String → List Ev → List PageOutcome → RunOut
  | _, acc, evs, [] =>
    { events := evs ++ [.httpGet], fs := some acc, error := some "ECONNRESET" }
  | isFirst, acc, evs, o :: rest =>
    match o with
    | .reqFail m => { events := evs ++ [.httpGet], fs := some acc, error := some m }
    | .page status statusText chunks streamErr link =>
      if status ≠ 200 then
        { events := evs ++ [.httpGet]
          fs := some acc
          error := some ("Error while fetching data: HTTP " ++ statusText) }
      else
        let out := if isFirst then chunks else stripPage chunks
        let acc' := acc ++ concatChunks out
        let evs' := evs ++ .httpGet :: out.map Ev.write
        match streamErr with
        | some m => { events := evs' ++ [.closeWrite], fs := some acc', error := some m }
        | none =>
          match extractNextPageUrl link with
          | .throwTypeError => { events := evs', fs := some acc', error := some "TypeError" }
          | .ok none => { events := evs' ++ [.closeWrite], fs := some acc', error := none }
          | .ok (some _) => runLinesGo false acc' evs' rest

/-- `downloadResourceLines`: the write stream is opened (truncating the
destination) before the first request; the initial URL is never null, so
the loop body runs at least once. -/
def runLines (pages : List PageOutcome) : RunOut :=
  runLinesGo true "" [.openWrite] pages

/-- The two retrieval strategies. -/
inductive Strategy where
  | bulk : Strategy
  | rows : Strategy
deriving DecidableEq

/-- JS `array?.length` coerced through truthiness: `undefined` and `0` are
falsy. -/
def jsLen {α : Type} : Option (List α) → Nat
  | none => 0
  | some l => l.length

/-- The strategy decision of `downloadResource`:
`file && !importConfig.fields?.length && !importConfig.filters?.length`. -/
def chooseStrategy (file : Bool) (fields : Option (List FieldRef))
    (filters : Option (List Filter)) : Strategy :=
  if file = true ∧ jsLen fields = 0 ∧ jsLen filters = 0 then .bulk else .rows

/-- JS `res.size || NaN`: `undefined` and `0` are falsy and give `NaN`
(modelled as `none`); a nonzero size passes through. -/
def jsOrNaN : Option Nat → Option Nat
  | none => none
  | some n => if n = 0 then none else some n

/-- `join(context.tmpDir, resourceId + '.csv')`. -/
def destPath (tmpDir resourceId : String) : String :=
  tmpDir ++ "/" ++ resourceId ++ ".csv"

/-- Result of `downloadResource`: the destination path, or the wrapped
error thrown by its `catch`. -/
inductive DriverResult where
  | path : String → DriverResult
  | err : String → DriverResult
deriving DecidableEq

/-- Events, destination-file state and result of a whole driver run. -/
structure DriverOut where
  events : List Ev
  fs : Option String
  result : DriverResult
deriving DecidableEq

/-- The `try`/`catch` of `downloadResource`: a failed transfer is re-thrown
as the single user-facing download error; a successful one returns the
destination path. -/
def wrapDriver (tmpDir resourceId : String) (inner : RunOut) : DriverOut :=
  match inner.error with
  | none => { events := inner.events, fs := inner.fs, result := .path (destPath tmpDir resourceId) }
  | some m =>
    { events := inner.events
      fs := inner.fs
      result := .err ("Erreur pendant le téléchargement du fichier: " ++ m) }

/-- `downloadResource`: choose the strategy, emit the task-start event
(whose total is `res.size || NaN` on the bulk path and the literal `NaN`
on the row path), run the transfer, and wrap the outcome. -/
def runDriver (tmpDir resourceId : String) (file : Bool)
    (fields : Option (List FieldRef)) (filters : Option (List Filter))
    (size : Option Nat) (fs0 : Option String)
    (bulkO : BulkOutcome) (pages : List PageOutcome) : DriverOut :=
  wrapDriver tmpDir resourceId
    (match chooseStrategy file fields filters with
     | .bulk =>
       let r := runBulk fs0 bulkO
       { r with events := .task (jsOrNaN size) :: r.events }
     | .rows =>
       let r := runLines pages
       { r with events := .task none :: r.events })

/-- Result of `getResource`: the resource with its `filePath`, or an
error. -/
inductive GetResourceResult where
  | err : String → GetResourceResult
  | ok : Resource → GetResourceResult
deriving DecidableEq

/-- The tail of `getResource` after the metadata step: on download success
assign `resource.filePath` (the assignment is recorded in the returned
write list) and return the resource; on failure propagate the error with
no assignment. -/
def assignFilePath (res : Resource) : DriverResult → GetResourceResult × List String
  | .err m => (.err m, [])
  | .path p => (.ok { res with filePath := p }, [p])

/-- `getResource`: fetch the metadata, then download; either failure
propagates before the `filePath` assignment. -/
def getResourceRun (slug : String → String) (catalogUrl tmpDir resourceId : String)
    (mh : MetaHttp) (fields : Option (List FieldRef)) (filters : Option (List Filter))
    (fs0 : Option String) (bulkO : BulkOutcome) (pages : List PageOutcome) :
    GetResourceResult × List String :=
  match getMetaData slug catalogUrl resourceId mh with
  | .err m => (.err m, [])
  | .ok res file =>
    assignFilePath res (runDriver tmpDir resourceId file fields filters res.size fs0 bulkO pages).result

/-! ### Theorems -/

/-- `array?.length` is falsy exactly for an absent or empty array. -/
theorem jsLen_eq_zero {α : Type} (o : Option (List α)) :
    jsLen o = 0 ↔ o = none ∨ o = some [] := by
  cases o with
  | none => simp [jsLen]
  | some l => cases l <;> simp [jsLen]

/-- C3: the driver takes the bulk-file path iff `hasBulkFile` is true and
the field-selection list is empty or absent and the filter list is empty
or absent; any non-empty field selection or non-empty filter list forces
the row-streaming path. -/
theorem claimC3_strategy (file : Bool) (fields : Option (List FieldRef))
    (filters : Option (List Filter)) :
    chooseStrategy file fields filters = .bulk ↔
      (file = true ∧ (fields = none ∨ fields = some []) ∧ (filters = none ∨ filters = some [])) := by
  unfold chooseStrategy
  rw [← jsLen_eq_zero fields, ← jsLen_eq_zero filters]
  split_ifs with h
  · simp [h]
  · constructor
    · intro hc
      exact hc.elim
    · intro hc
      exact absurd hc h

/-- Witness for C3 at a concrete input: a bulk file with empty field and
filter lists selects the bulk path. -/
theorem claimC3_strategy_witness : chooseStrategy true none (some []) = .bulk :=
  (claimC3_strategy true none (some [])).mpr ⟨rfl, Or.inl rfl, Or.inr rfl⟩

/-- Normalizing one field twice is the same as normalizing it once: the
first pass clears `'x-extension'`, so the second pass is the identity. -/
theorem normalizeField_idem (slug : String → String) (f : SchemaField) :
    normalizeField slug (normalizeField slug f) = normalizeField slug f := by
  by_cases h : jsTruthy f.xExtension = true
  · have h2 : normalizeField slug f
        = { f with key := slug (stripLeadingUnderscore f.key), xExtension := none } := by
      unfold normalizeField
      rw [if_pos h]
    rw [h2]
    unfold normalizeField
    rw [if_neg (by simp [jsTruthy])]
  · have h2 : normalizeField slug f = f := by
      unfold normalizeField
      rw [if_neg h]
    rw [h2, h2]

/-- C9: schema normalization is idempotent — applying it to an
already-normalized schema returns it unchanged (the normalized form is a
fixed point), for any slugification function. -/
theorem claimC9_normalize_idem (slug : String → String) (schema : List SchemaField) :
    normalizeSchema slug (normalizeSchema slug schema) = normalizeSchema slug schema := by
  unfold normalizeSchema
  induction schema with
  | nil => rfl
  | cons f fs ih => simp [ih, normalizeField_idem]

/-- Under well-formedness, the clause the code produces for one filter is
exactly the clause the specification describes. -/
theorem filterClause_eq_spec (f : Filter)
    (h1 : (f.type = "in" ∨ f.type = "nin") → f.values.isSome)
    (h2 : (f.type = "starts" ∨ f.type = "gte" ∨ f.type = "lte") → f.value.isSome) :
    filterClause f = specFilterClause f := by
  unfold filterClause specFilterClause
  split_ifs with hin hsingle
  · match hv : f.values with
    | some vs => simp [jsJoinQuoted]
    | none => exact absurd (h1 hin) (by simp [hv])
  · match hv : f.value with
    | some v => simp [jsStr]
    | none => exact absurd (h2 hsingle) (by simp [hv])
  · rfl

/-- The left fold accumulating filter clauses equals appending the
spec-side clause sequence, when each filter's clause agrees with its
spec clause. -/
theorem foldl_filterClause_eq (l : List Filter)
    (h : ∀ f ∈ l, filterClause f = specFilterClause f) :
    ∀ u : String, l.foldl (fun u f => u ++ filterClause f) u = u ++ specFilterPart l := by
  induction l with
  | nil =>
    intro u
    simp [specFilterPart, String.append_empty]
  | cons f fs ih =>
    intro u
    have hf : filterClause f = specFilterClause f := h f (by simp)
    have ihs : ∀ g ∈ fs, filterClause g = specFilterClause g := fun g hg => h g (by simp [hg])
    calc (f :: fs).foldl (fun u f => u ++ filterClause f) u
        = fs.foldl (fun u f => u ++ filterClause f) (u ++ filterClause f) := by
          simp [List.foldl_cons]
      _ = (u ++ filterClause f) ++ specFilterPart fs := ih ihs (u ++ filterClause f)
      _ = u ++ (specFilterClause f ++ specFilterPart fs) := by
          rw [hf, String.append_assoc]
      _ = u ++ specFilterPart (f :: fs) := rfl

/-- The query string the code builds equals the one the specification
describes, for every well-formed import configuration. -/
theorem buildLinesUrl_eq_spec (catalogUrl resourceId : String)
    (fields : Option (List FieldRef)) (filters : Option (List Filter))
    (hwf : filtersWF filters) :
    buildLinesUrl catalogUrl resourceId fields filters
      = specLinesUrl catalogUrl resourceId fields filters := by
  unfold buildLinesUrl specLinesUrl
  have hcl : ∀ f ∈ filters.getD [], filterClause f = specFilterClause f := by
    intro f hf
    exact filterClause_eq_spec f (hwf f hf).1 (hwf f hf).2
  cases filters with
  | none =>
    cases fields with
    | none => simp [specFilterPart, String.append_empty]
    | some fs => simp [specFilterPart, String.append_empty, String.append_assoc]
  | some fl =>
    have h := foldl_filterClause_eq fl (by simpa using hcl)
    cases fields with
    | none => simp [h, String.append_empty]
    | some fs => simp [h, String.append_assoc]

/-- C5: for every well-formed import configuration, the row-streaming
query string is the base path `/datasets/{id}/lines?format=csv&size=5000`,
then a select clause of comma-joined field keys when a field list is
given, then for each filter in input order a clause
`&{fieldKey}_{filterType}={encodedValue}` — `in`/`nin` quote and
comma-join their values without URL-percent-encoding, `starts`/`gte`/`lte`
append the single raw value unescaped, unknown types contribute no
clause. -/
theorem claimC5_query_string (catalogUrl resourceId : String)
    (fields : Option (List FieldRef)) (filters : Option (List Filter))
    (hwf : filtersWF filters) :
    buildLinesUrl catalogUrl resourceId fields filters
      = specLinesUrl catalogUrl resourceId fields filters :=
  buildLinesUrl_eq_spec catalogUrl resourceId fields filters hwf

/-- Witness for C5 on the specification's own examples: a two-field select
with a `gte` filter, and an `in` filter with two values. -/
theorem claimC5_query_string_witness :
    (filtersWF (some [⟨⟨"y"⟩, "gte", some "2020", none⟩])
      ∧ buildLinesUrl "" "d" (some [⟨"a"⟩, ⟨"b"⟩]) (some [⟨⟨"y"⟩, "gte", some "2020", none⟩])
          = "/data-fair/api/v1/datasets/d/lines?format=csv&size=5000&select=a,b&y_gte=2020")
    ∧ (filtersWF (some [⟨⟨"s"⟩, "in", none, some ["x", "y"]⟩])
      ∧ buildLinesUrl "" "d" none (some [⟨⟨"s"⟩, "in", none, some ["x", "y"]⟩])
          = "/data-fair/api/v1/datasets/d/lines?format=csv&size=5000&s_in=\"x\",\"y\"") := by
  refine ⟨⟨by decide, ?_⟩, ⟨by decide, ?_⟩⟩
  · exact (claimC5_query_string "" "d" (some [⟨"a"⟩, ⟨"b"⟩])
      (some [⟨⟨"y"⟩, "gte", some "2020", none⟩]) (by decide)).trans (by decide)
  · exact (claimC5_query_string "" "d" none
      (some [⟨⟨"s"⟩, "in", none, some ["x", "y"]⟩]) (by decide)).trans (by decide)

/-- C6 counterexample: with a field-selection list that is present but
empty, the code appends an empty select clause `&select=` (the JS
truthiness test `if (importConfig.fields)` is true for an empty array), so
the query string does contain a select clause, contrary to the claim. -/
theorem claimC6_empty_fields_counterexample :
    buildLinesUrl "" "d" (some []) none = linesBase "" "d" ++ "&select="
    ∧ buildLinesUrl "" "d" none none = linesBase "" "d"
    ∧ linesBase "" "d" ++ "&select=" ≠ linesBase "" "d" := by
  refine ⟨by decide, by decide, by decide⟩

/-- C6 amended: only an **absent** field-selection list yields no select
clause; a present-but-empty list appends the clause `&select=` with an
empty key list. -/
theorem claimC6_select_clause (catalogUrl resourceId : String)
    (filters : Option (List Filter)) (hwf : filtersWF filters) :
    buildLinesUrl catalogUrl resourceId none filters
        = linesBase catalogUrl resourceId ++ specFilterPart (filters.getD [])
    ∧ buildLinesUrl catalogUrl resourceId (some []) filters
        = (linesBase catalogUrl resourceId ++ "&select=") ++ specFilterPart (filters.getD []) := by
  constructor
  · have h := buildLinesUrl_eq_spec catalogUrl resourceId none filters hwf
    rw [h]
    unfold specLinesUrl
    rw [String.append_empty]
  · have h := buildLinesUrl_eq_spec catalogUrl resourceId (some []) filters hwf
    rw [h]
    show (linesBase catalogUrl resourceId ++ ("&select=" ++ "")) ++ specFilterPart (filters.getD [])
        = (linesBase catalogUrl resourceId ++ "&select=") ++ specFilterPart (filters.getD [])
    rw [String.append_empty]

/-- Witness for C6 amended at a concrete input: no field list and one
filter yield the base URL followed by the filter clause only. -/
theorem claimC6_select_clause_witness :
    buildLinesUrl "" "d" none (some [⟨⟨"y"⟩, "gte", some "2020", none⟩])
      = linesBase "" "d" ++ specFilterPart [⟨⟨"y"⟩, "gte", some "2020", none⟩] :=
  (claimC6_select_clause "" "d" (some [⟨⟨"y"⟩, "gte", some "2020", none⟩]) (by decide)).1

/-- C8 counterexample: on the header value `foo` — a single entry without
any `;` — `extractNextPageUrl` does not return null: destructuring leaves
`relPart` undefined and `relPart.trim()` throws a TypeError. -/
theorem claimC8_no_semicolon_counterexample :
    extractNextPageUrl (some "foo") = .throwTypeError
    ∧ LinkResult.throwTypeError ≠ LinkResult.ok none := by
  refine ⟨by decide, by decide⟩

/-- Unfolding equation for the loop of `extractNextPageUrl` on an entry
whose split has at least two pieces. -/
theorem extractNextPageUrlGo_cons (e : String) (rest : List String)
    (u r : String) (t : List String) (hsp : jsSplit ';' e = u :: r :: t) :
    extractNextPageUrlGo (e :: rest)
      = if jsTrim r = "rel=next" then .ok (some (jsSliceInner (jsTrim u)))
        else extractNextPageUrlGo rest := by
  have h1 : extractNextPageUrlGo (e :: rest)
      = (match jsSplit ';' e with
         | [] => LinkResult.throwTypeError
         | [_] => LinkResult.throwTypeError
         | urlPart :: relPart :: _ =>
           if jsTrim relPart = "rel=next" then .ok (some (jsSliceInner (jsTrim urlPart)))
           else extractNextPageUrlGo rest) := rfl
  rw [h1, hsp]

/-- The loop of `extractNextPageUrl` agrees with the spec-side selection
of the first `rel=next` entry, provided every entry contains a `;`. -/
theorem extractNextPageUrlGo_eq_spec (entries : List String)
    (h : ∀ e ∈ entries, 2 ≤ (jsSplit ';' e).length) :
    extractNextPageUrlGo entries = .ok (specNextUrl entries) := by
  induction entries with
  | nil => rfl
  | cons e rest ih =>
    have he : 2 ≤ (jsSplit ';' e).length := h e (by simp)
    have hrest : ∀ x ∈ rest, 2 ≤ (jsSplit ';' x).length := fun x hx => h x (by simp [hx])
    obtain ⟨u, r, t, hsp⟩ : ∃ u r t, jsSplit ';' e = u :: r :: t := by
      match hx : jsSplit ';' e with
      | [] => simp [hx] at he
      | [a] => simp [hx] at he
      | a :: b :: t0 => exact ⟨a, b, t0, rfl⟩
    rw [extractNextPageUrlGo_cons e rest u r t hsp]
    unfold specNextUrl
    by_cases hb : jsTrim r = "rel=next"
    · rw [if_pos hb, List.find?_cons_of_pos _ (by unfold specIsNext; rw [hsp]; simp [hb])]
      have hu : specEntryUrl e = jsSliceInner (jsTrim u) := by
        unfold specEntryUrl
        rw [hsp]
        rfl
      simp [hu]
    · rw [if_neg hb, List.find?_cons_of_neg _ (by unfold specIsNext; rw [hsp]; simp [hb])]
      exact ih hrest

/-- C8 amended: next-page extraction returns the bracket-stripped URL of
the first comma-separated entry whose trimmed relation part equals the
literal `rel=next`, and null when the header is absent, empty, or no entry
matches — provided every entry contains a `;`; an entry without `;` makes
the extraction throw a TypeError instead of returning null. -/
theorem claimC8_next_page (lh : String)
    (hwf : ∀ e ∈ jsSplit ',' lh, 2 ≤ (jsSplit ';' e).length) :
    extractNextPageUrl (some lh) = .ok (specNextUrl (jsSplit ',' lh))
    ∧ extractNextPageUrl none = .ok none := by
  constructor
  · show (if lh = "" then LinkResult.ok none else extractNextPageUrlGo (jsSplit ',' lh))
        = LinkResult.ok (specNextUrl (jsSplit ',' lh))
    by_cases h0 : lh = ""
    · subst h0
      exact absurd (hwf "" (by decide)) (by decide)
    · rw [if_neg h0]
      exact extractNextPageUrlGo_eq_spec _ hwf
  · rfl

/-- Witness for C8 amended at a concrete two-entry header. -/
theorem claimC8_next_page_witness :
    extractNextPageUrl (some "<u>; rel=prev, <https://x?after=12>; rel=next")
      = .ok (specNextUrl (jsSplit ',' "<u>; rel=prev, <https://x?after=12>; rel=next")) :=
  (claimC8_next_page "<u>; rel=prev, <https://x?after=12>; rel=next" (by decide)).1

/-- Unfolding equation of the pagination loop on a rejected request. -/
theorem runLinesGo_reqFail (isFirst : Bool) (acc : String) (evs : List Ev)
    (m : String) (rest : List PageOutcome) :
    runLinesGo isFirst acc evs (.reqFail m :: rest)
      = { events := evs ++ [.httpGet], fs := some acc, error := some m } := rfl

/-- Unfolding equation of the pagination loop on a response. -/
theorem runLinesGo_page (isFirst : Bool) (acc : String) (evs : List Ev)
    (st : Nat) (stx : String) (chunks : List String) (serr : Option String)
    (link : Option String) (rest : List PageOutcome) :
    runLinesGo isFirst acc evs (.page st stx chunks serr link :: rest)
      = if st ≠ 200 then
          { events := evs ++ [.httpGet]
            fs := some acc
            error := some ("Error while fetching data: HTTP " ++ stx) }
        else
          let out := if isFirst then chunks else stripPage chunks
          let acc' := acc ++ concatChunks out
          let evs' := evs ++ .httpGet :: out.map Ev.write
          match serr with
          | some m => { events := evs' ++ [.closeWrite], fs := some acc', error := some m }
          | none =>
            match extractNextPageUrl link with
            | .throwTypeError => { events := evs', fs := some acc', error := some "TypeError" }
            | .ok none => { events := evs' ++ [.closeWrite], fs := some acc', error := none }
            | .ok (some _) => runLinesGo false acc' evs' rest := rfl

/-- The pagination loop never deletes the destination file: its final
file state is always `some` content. -/
theorem runLinesGo_fs_isSome (ps : List PageOutcome) :
    ∀ (isFirst : Bool) (acc : String) (evs : List Ev),
      ((runLinesGo isFirst acc evs ps).fs).isSome := by
  induction ps with
  | nil => intro isFirst acc evs; rfl
  | cons o rest ih =>
    intro isFirst acc evs
    cases o with
    | reqFail m =>
      rw [runLinesGo_reqFail]
      rfl
    | page st stx chunks serr link =>
      rw [runLinesGo_page]
      by_cases hst : st = 200
      · rw [if_neg (by simp [hst])]
        cases serr with
        | some m => rfl
        | none =>
          rcases hE : extractNextPageUrl link with _ | u
          · simp [hE]
          · cases u with
            | none => simp [hE]
            | some x => simp [hE, ih]
      · rw [if_pos (by simp [hst])]
        rfl

/-- The events of the pagination loop extend the events accumulated so
far. -/
theorem runLinesGo_events_extend (ps : List PageOutcome) :
    ∀ (isFirst : Bool) (acc : String) (evs : List Ev),
      ∃ t, (runLinesGo isFirst acc evs ps).events = evs ++ t := by
  induction ps with
  | nil => intro isFirst acc evs; exact ⟨[.httpGet], rfl⟩
  | cons o rest ih =>
    intro isFirst acc evs
    cases o with
    | reqFail m => exact ⟨[.httpGet], rfl⟩
    | page st stx chunks serr link =>
      rw [runLinesGo_page]
      by_cases hst : st = 200
      · rw [if_neg (by simp [hst])]
        cases serr with
        | some m =>
          exact ⟨(.httpGet :: (if isFirst then chunks else stripPage chunks).map Ev.write)
            ++ [.closeWrite], by simp⟩
        | none =>
          rcases hE : extractNextPageUrl link with _ | u
          · simp only [hE]
            exact ⟨.httpGet :: (if isFirst then chunks else stripPage chunks).map Ev.write, by simp⟩
          · cases u with
            | none =>
              simp only [hE]
              exact ⟨(.httpGet :: (if isFirst then chunks else stripPage chunks).map Ev.write)
                ++ [.closeWrite], by simp⟩
            | some x =>
              simp only [hE]
              obtain ⟨t, ht⟩ := ih false
                (acc ++ concatChunks (if isFirst then chunks else stripPage chunks))
                (evs ++ .httpGet :: (if isFirst then chunks else stripPage chunks).map Ev.write)
              refine ⟨.httpGet :: (if isFirst then chunks else stripPage chunks).map Ev.write
                ++ t, ?_⟩
              rw [ht]
              simp
      · rw [if_pos (by simp [hst])]
        exact ⟨[.httpGet], rfl⟩

/-- C1 (code defect): the per-page header strip drops all bytes of a
later page up to and including the first newline only when that newline
falls in the first chunk; when the header line spans more than one chunk,
the newline-free first chunk is forwarded unchanged, so a header fragment
leaks into the output.  Evaluated both on the transform alone and on a
whole two-page run whose second page arrives split inside the header. -/
theorem claimC1_header_fragment_leak :
    stripPage ["col1,col2\nrow2,b\n"] = ["row2,b\n"]
    ∧ stripPage ["col1,co", "l2\nrow2,b\n"] = ["col1,co", "row2,b\n"]
    ∧ concatChunks (stripPage ["col1,co", "l2\nrow2,b\n"]) = "col1,corow2,b\n"
    ∧ specDropHeader (concatChunks ["col1,co", "l2\nrow2,b\n"]) = "row2,b\n"
    ∧ concatChunks (stripPage ["col1,co", "l2\nrow2,b\n"])
        ≠ specDropHeader (concatChunks ["col1,co", "l2\nrow2,b\n"])
    ∧ (runLines
        [.page 200 "OK" ["col1,col2\nrow1,a\n"] none (some "<u>; rel=next"),
         .page 200 "OK" ["col1,co", "l2\nrow2,b\n"] none none]).fs
        = some "col1,col2\nrow1,a\ncol1,corow2,b\n"
    ∧ (runLines
        [.page 200 "OK" ["col1,col2\nrow1,a\n"] none (some "<u>; rel=next"),
         .page 200 "OK" ["col1,co", "l2\nrow2,b\n"] none none]).error = none := by
  refine ⟨by decide, by decide, by decide, by decide, by decide, by decide, by decide⟩

/-- C10: the bulk path creates the destination file only after a 200
response — a rejected bulk GET or a non-200 status rejects before
`fs.createWriteStream`, emitting no open event and leaving the existing
file state untouched — whereas the row-streaming path opens the write
stream before its first request. -/
theorem claimC10_file_creation_order :
    (∀ (fs0 : Option String) (m : String),
      Ev.openWrite ∉ (runBulk fs0 (.reqFail m)).events
      ∧ (runBulk fs0 (.reqFail m)).fs = fs0
      ∧ ((runBulk fs0 (.reqFail m)).error).isSome)
    ∧ (∀ (fs0 : Option String) (r : BulkResp), r.status ≠ 200 →
      Ev.openWrite ∉ (runBulk fs0 (.resp r)).events
      ∧ (runBulk fs0 (.resp r)).fs = fs0
      ∧ ((runBulk fs0 (.resp r)).error).isSome)
    ∧ (∀ ps : List PageOutcome, (runLines ps).events.head? = some .openWrite) := by
  refine ⟨?_, ?_, ?_⟩
  · intro fs0 m
    refine ⟨by simp [runBulk], rfl, rfl⟩
  · intro fs0 r hr
    simp only [runBulk]
    rw [if_pos hr]
    refine ⟨by simp, rfl, rfl⟩
  · intro ps
    obtain ⟨t, ht⟩ := runLinesGo_events_extend ps true "" [.openWrite]
    unfold runLines
    rw [ht]
    rfl

/-- Witness for C10 at a concrete input: a 404 bulk response opens no
write stream and leaves the absent destination file absent. -/
theorem claimC10_file_creation_order_witness :
    Ev.openWrite ∉ (runBulk none (.resp ⟨404, "Not Found", [], .done⟩)).events
    ∧ (runBulk none (.resp ⟨404, "Not Found", [], .done⟩)).fs = none :=
  ⟨(claimC10_file_creation_order.2.1 none ⟨404, "Not Found", [], .done⟩ (by decide)).1,
   (claimC10_file_creation_order.2.1 none ⟨404, "Not Found", [], .done⟩ (by decide)).2.1⟩

/-- The driver wrapper does not change the transfer's events. -/
theorem wrapDriver_events (tmpDir resourceId : String) (inner : RunOut) :
    (wrapDriver tmpDir resourceId inner).events = inner.events := by
  unfold wrapDriver
  cases hE : inner.error
  · rfl
  · rfl

/-- The driver wrapper does not change the destination-file state. -/
theorem wrapDriver_fs (tmpDir resourceId : String) (inner : RunOut) :
    (wrapDriver tmpDir resourceId inner).fs = inner.fs := by
  unfold wrapDriver
  cases hE : inner.error
  · rfl
  · rfl

/-- A failing wrapped run carries the single prefixed user-facing message
around the inner cause. -/
theorem wrapDriver_err (tmpDir resourceId : String) (inner : RunOut) (m : String)
    (h : (wrapDriver tmpDir resourceId inner).result = .err m) :
    ∃ c, inner.error = some c
      ∧ m = "Erreur pendant le téléchargement du fichier: " ++ c := by
  unfold wrapDriver at h
  cases hE : inner.error with
  | none =>
    rw [hE] at h
    exact DriverResult.noConfusion h
  | some c =>
    rw [hE] at h
    exact ⟨c, rfl, (DriverResult.err.injEq _ _ ▸ h).symm⟩

/-- A wrapped run that returns a path returns the deterministic
destination path. -/
theorem wrapDriver_path (tmpDir resourceId : String) (inner : RunOut) (p : String)
    (h : (wrapDriver tmpDir resourceId inner).result = .path p) :
    p = destPath tmpDir resourceId ∧ inner.error = none := by
  unfold wrapDriver at h
  cases hE : inner.error with
  | none =>
    rw [hE] at h
    exact ⟨((DriverResult.path.injEq _ _) ▸ h).symm, rfl⟩
  | some c =>
    rw [hE] at h
    exact DriverResult.noConfusion h

/-- C2 counterexample: a row-streaming acquisition whose page stream
errors after rows were written rejects with the wrapped error, but the
partial output file is **not** deleted — it remains on disk with the bytes
written so far (`downloadResourceLines` has no `fs.unlink` on its error
paths, and neither does the driver's `catch`). -/
theorem claimC2_rows_no_cleanup_counterexample :
    (runDriver "tmp" "rid" false none none none none (.reqFail "unused")
        [.page 200 "OK" ["h,x\nr,1\n"] (some "boom") none]).result
      = .err "Erreur pendant le téléchargement du fichier: boom"
    ∧ (runDriver "tmp" "rid" false none none none none (.reqFail "unused")
        [.page 200 "OK" ["h,x\nr,1\n"] (some "boom") none]).fs
      = some "h,x\nr,1\n"
    ∧ (runDriver "tmp" "rid" false none none none none (.reqFail "unused")
        [.page 200 "OK" ["h,x\nr,1\n"] (some "boom") none]).fs ≠ none := by
  refine ⟨by decide, by decide, by decide⟩

/-- C2 amended: every failing acquisition rejects with the single wrapped
user-facing download error and returns no path, but the partial-file
deletion holds only on the bulk path — a bulk transfer failing after
writing began unlinks the destination before rejecting (an unlink failure
is swallowed and leaves the file), while a failing row-streaming transfer
always leaves the (partial) output file on disk. -/
theorem claimC2_failure_cleanup :
    (∀ (tmpDir resourceId : String) (file : Bool) (fields : Option (List FieldRef))
        (filters : Option (List Filter)) (size : Option Nat) (fs0 : Option String)
        (bulkO : BulkOutcome) (pages : List PageOutcome) (m : String),
      (runDriver tmpDir resourceId file fields filters size fs0 bulkO pages).result = .err m →
        ∃ c, m = "Erreur pendant le téléchargement du fichier: " ++ c)
    ∧ (∀ (fs0 : Option String) (r : BulkResp) (m : String) (unlinkFails : Bool),
        r.status = 200 →
        (r.term = .srcErr m unlinkFails ∨ r.term = .sinkErr m unlinkFails) →
        (runBulk fs0 (.resp r)).error = some m
        ∧ (runBulk fs0 (.resp r)).fs
            = (if unlinkFails then some (concatChunks r.chunks) else none))
    ∧ (∀ ps : List PageOutcome, ((runLines ps).fs).isSome) := by
  refine ⟨?_, ?_, ?_⟩
  · intro tmpDir resourceId file fields filters size fs0 bulkO pages m h
    obtain ⟨c, _, hc⟩ := wrapDriver_err tmpDir resourceId _ m h
    exact ⟨c, hc⟩
  · intro fs0 r m unlinkFails hst hterm
    obtain ⟨st, stx, chunks, term⟩ := r
    simp only at hst
    subst hst
    rcases hterm with h | h <;>
      (simp only at h; subst h; exact ⟨rfl, rfl⟩)
  · intro ps
    exact runLinesGo_fs_isSome ps true "" [.openWrite]

/-- Witness for C2 amended at concrete inputs: the wrapped message of a
failing row run, bulk-path deletion on a source-stream error, and the file
surviving a failing row run. -/
theorem claimC2_failure_cleanup_witness :
    (∃ c, "Erreur pendant le téléchargement du fichier: boom"
        = "Erreur pendant le téléchargement du fichier: " ++ c)
    ∧ (runBulk (some "old") (.resp ⟨200, "OK", ["h,x\nr,1\n"], .srcErr "reset" false⟩)).fs = none
    ∧ ((runLines [.page 200 "OK" ["h,x\nr,1\n"] (some "boom") none]).fs).isSome := by
  refine ⟨?_, ?_, ?_⟩
  · exact claimC2_failure_cleanup.1 "tmp" "rid" false none none none none (.reqFail "unused")
      [.page 200 "OK" ["h,x\nr,1\n"] (some "boom") none] _ (by decide)
  · exact (claimC2_failure_cleanup.2.1 (some "old") ⟨200, "OK", ["h,x\nr,1\n"], .srcErr "reset" false⟩
      "reset" false rfl (Or.inl rfl)).2
  · exact claimC2_failure_cleanup.2.2 [.page 200 "OK" ["h,x\nr,1\n"] (some "boom") none]

/-- C7 counterexample: the row-streaming branch passes the literal `NaN`
as the task total even when the resolved size is defined (here 100), and
the bulk branch turns a defined size of 0 into `NaN` (`res.size || NaN`),
both contrary to the claim that the total is the size whenever the size is
defined. -/
theorem claimC7_task_total_counterexample :
    (runDriver "t" "rid" false none none (some 100) none (.reqFail "z")
        [.page 200 "OK" ["h\n"] none none]).events.head? = some (.task none)
    ∧ (runDriver "t" "rid" true none none (some 0) none
        (.resp ⟨200, "OK", ["h\n"], .done⟩) []).events.head? = some (.task none)
    ∧ (some 100 : Option Nat) ≠ none
    ∧ (some 0 : Option Nat) ≠ none := by
  refine ⟨by decide, by decide, by decide, by decide⟩

/-- C7 amended: the driver emits the task-start event first, before any
transfer event; on the bulk path its total is `res.size || NaN` — the
resolved size when defined and nonzero, `NaN` when absent or zero — and on
the row-streaming path the total is always `NaN`, whatever the size. -/
theorem claimC7_task_total (tmpDir resourceId : String) (file : Bool)
    (fields : Option (List FieldRef)) (filters : Option (List Filter))
    (size : Option Nat) (fs0 : Option String)
    (bulkO : BulkOutcome) (pages : List PageOutcome) :
    (runDriver tmpDir resourceId file fields filters size fs0 bulkO pages).events.head?
      = some (.task (match chooseStrategy file fields filters with
                     | .bulk => jsOrNaN size
                     | .rows => none))
    ∧ jsOrNaN none = none
    ∧ jsOrNaN (some 0) = none
    ∧ (∀ n : Nat, n ≠ 0 → jsOrNaN (some n) = some n) := by
  refine ⟨?_, rfl, rfl, ?_⟩
  · unfold runDriver
    cases hS : chooseStrategy file fields filters
    · rw [wrapDriver_events]
      rfl
    · rw [wrapDriver_events]
      rfl
  · intro n hn
    simp [jsOrNaN, hn]

/-- Witness for C7 amended at concrete inputs: a bulk run with size 5
reports 5, and a nonzero size passes through `res.size || NaN`. -/
theorem claimC7_task_total_witness :
    (runDriver "t" "rid" true none none (some 5) none (.reqFail "z") []).events.head?
      = some (.task (some 5))
    ∧ jsOrNaN (some 3) = some 3 := by
  constructor
  · have h := (claimC7_task_total "t" "rid" true none none (some 5) none (.reqFail "z") []).1
    exact h.trans (by decide)
  · exact (claimC7_task_total "t" "rid" true none none (some 5) none
      (.reqFail "z") []).2.2.2 3 (by decide)

/-- C4: the resource built from the metadata starts with an empty
`filePath`; a successful run assigns it exactly once, with the
deterministic destination path, only after the download succeeded; every
failing run (metadata fetch failure or download failure) raises before the
assignment, performing no write. -/
theorem claimC4_filePath_once (slug : String → String)
    (catalogUrl tmpDir resourceId : String) (mh : MetaHttp)
    (fields : Option (List FieldRef)) (filters : Option (List Filter))
    (fs0 : Option String) (bulkO : BulkOutcome) (pages : List PageOutcome) :
    (∀ d : DataFairDataset, (mkResource slug catalogUrl resourceId d).filePath = "")
    ∧ (∀ r : Resource,
        (getResourceRun slug catalogUrl tmpDir resourceId mh fields filters fs0 bulkO pages).1
          = .ok r →
        (getResourceRun slug catalogUrl tmpDir resourceId mh fields filters fs0 bulkO pages).2
          = [r.filePath]
        ∧ r.filePath = destPath tmpDir resourceId)
    ∧ (∀ m : String,
        (getResourceRun slug catalogUrl tmpDir resourceId mh fields filters fs0 bulkO pages).1
          = .err m →
        (getResourceRun slug catalogUrl tmpDir resourceId mh fields filters fs0 bulkO pages).2
          = []) := by
  have hrun : ∀ res file, getMetaData slug catalogUrl resourceId mh = .ok res file →
      getResourceRun slug catalogUrl tmpDir resourceId mh fields filters fs0 bulkO pages
        = assignFilePath res
            (runDriver tmpDir resourceId file fields filters res.size fs0 bulkO pages).result := by
    intro res file hM
    unfold getResourceRun
    rw [hM]
  have herr : ∀ m, getMetaData slug catalogUrl resourceId mh = .err m →
      getResourceRun slug catalogUrl tmpDir resourceId mh fields filters fs0 bulkO pages
        = (.err m, []) := by
    intro m hM
    unfold getResourceRun
    rw [hM]
  refine ⟨fun d => rfl, ?_, ?_⟩
  · intro r h
    cases hM : getMetaData slug catalogUrl resourceId mh with
    | err m =>
      rw [herr m hM] at h
      exact GetResourceResult.noConfusion h
    | ok res file =>
      rw [hrun res file hM] at h ⊢
      cases hR : (runDriver tmpDir resourceId file fields filters res.size fs0 bulkO pages).result with
      | err m =>
        rw [hR] at h
        exact GetResourceResult.noConfusion h
      | path p =>
        rw [hR] at h
        have hp : p = destPath tmpDir resourceId :=
          (wrapDriver_path tmpDir resourceId _ p hR).1
        have h2 : GetResourceResult.ok { res with filePath := p } = .ok r := h
        injection h2 with hr
        subst hr
        exact ⟨rfl, hp⟩
  · intro m h
    cases hM : getMetaData slug catalogUrl resourceId mh with
    | err m2 =>
      rw [herr m2 hM]
    | ok res file =>
      rw [hrun res file hM] at h ⊢
      cases hR : (runDriver tmpDir resourceId file fields filters res.size fs0 bulkO pages).result with
      | err m2 => rfl
      | path p =>
        rw [hR] at h
        exact GetResourceResult.noConfusion h

/-- Witness for C4: a concrete successful row-streaming acquisition writes
`filePath` exactly once with `{tmpDir}/{resourceId}.csv`, and a concrete
failing one writes nothing. -/
theorem claimC4_filePath_once_witness :
    ((getResourceRun (fun s => s) "https://c" "tmp" "rid"
        (.resp 200 "" ⟨none, none, none, none, none, none, none, none, none, none⟩)
        none none none (.reqFail "unused")
        [.page 200 "OK" ["h\nr\n"] none none]).2
      = ["tmp/rid.csv"])
    ∧ ((getResourceRun (fun s => s) "https://c" "tmp" "rid" (.reqFail "down")
        none none none (.reqFail "unused") []).2 = []) := by
  constructor
  · have h := (claimC4_filePath_once (fun s => s) "https://c" "tmp" "rid"
        (.resp 200 "" ⟨none, none, none, none, none, none, none, none, none, none⟩)
        none none none (.reqFail "unused")
        [.page 200 "OK" ["h\nr\n"] none none]).2.1
    have h2 := h { mkResource (fun s => s) "https://c" "rid"
        ⟨none, none, none, none, none, none, none, none, none, none⟩ with
        filePath := "tmp/rid.csv" } (by decide)
    rw [h2.1]
  · exact (claimC4_filePath_once (fun s => s) "https://c" "tmp" "rid" (.reqFail "down")
      none none none (.reqFail "unused") []).2.2
      "Erreur lors de la récuperation de la resource DataFair. down" (by decide)

end CatalogDataFair
